import Mathlib

/-!
Verification of the paginated message counter in `src/utils/count_messages.py`
(repository `pubnub-punk`).

The store (the vendor SDK's `fetch_messages(...).sync()`) is an external
collaborator; it is modelled as an arbitrary stream of responses, one per
fetch call, indexed by the number of fetches issued so far.  The counting
driver itself is translated line by line from the source.  Python truthiness
on optional integer arguments (`if start_timetoken:` etc.) is modelled by
`otruthy`/`oval` on `Option Int`.  The unbounded `while True:` loop is run on
fuel; all stated properties are either invariants that hold for every fuel or
concrete executions with ample fuel.

Ghost fields (`counted`, `log`, `detection`, `fullScans`, `bisections`) record
which timetokens contributed to the returned total, which fetch requests were
issued, and which heuristic paths were taken; they do not influence control
flow or the returned count.
-/

set_option maxHeartbeats 1000000
set_option maxRecDepth 8000

namespace PubnubPunk

/-- Outcome of one `fetch_messages(...).sync()` call: a raised transport
exception, an error status (`envelope.status.is_error()`), the requested
channel missing from `envelope.result.channels`, or a batch of messages,
each represented by its integer timetoken. -/
inductive FetchResult where
  | transportError
  | storeError
  | channelMissing
  | batch (timetokens : List Int)
deriving DecidableEq

/-- The parameters of one fetch call, as assembled by the source
(`channels=[channel]`, `count=100`, optional `start`, optional `end`). -/
structure FetchParams where
  channel : String
  count : Nat
  start_tt : Option Int
  end_tt : Option Int
deriving DecidableEq

/-- The message store as seen by the driver: the response to the n-th fetch
call issued during one top-level invocation. -/
def Store := Nat → FetchResult

/-- Python truthiness of an optional integer: `None` and `0` are falsy. -/
def otruthy : Option Int → Bool
  | none => false
  | some x => decide (x ≠ 0)

/-- The integer value of an optional integer, defaulting to 0; only read
under an `otruthy` guard, mirroring how the source dereferences the value
after a truthiness check. -/
def oval : Option Int → Int
  | none => 0
  | some x => x

/-- Models `if x: params[k] = x`: the parameter actually sent when a value is
gated on truthiness. -/
def normOpt (o : Option Int) : Option Int := if otruthy o then o else none

/-- Models lines 163-164: the `end` parameter is sent iff `end_timetoken` is
truthy and not (api_ignoring_start and end_timetoken > 18000000000000000). -/
def pEndParam (api_ignoring_start : Bool) (end_timetoken : Option Int) : Option Int :=
  if otruthy end_timetoken &&
      !(api_ignoring_start && decide ((18000000000000000 : Int) < oval end_timetoken)) then
    end_timetoken
  else none

/-- The fetch parameters built at lines 150-164 of the main loop. -/
def main_fetch_params (channel : String) (end_timetoken current_start : Option Int)
    (api_ignoring_start : Bool) : FetchParams :=
  { channel := channel, count := 100,
    start_tt := normOpt current_start,
    end_tt := pEndParam api_ignoring_start end_timetoken }

/-- `min(list)` as used on the (nonempty) timetoken lists; 0 on `[]` (the
source only evaluates it on nonempty lists). -/
def list_min : List Int → Int
  | [] => 0
  | [x] => x
  | x :: y :: rest => min x (list_min (y :: rest))

/-- `max(list)` as used on the (nonempty) timetoken lists; 0 on `[]`. -/
def list_max : List Int → Int
  | [] => 0
  | [x] => x
  | x :: y :: rest => max x (list_max (y :: rest))

/-- State of the main pagination loop of `count_messages_in_channel`, minus
the advancing cursor `current_start` (threaded separately, since the source
never returns it).  `total`/`previous_oldest`/`first_iteration`/
`api_ignoring_start` are the source's loop variables; `counted`, `log`,
`detection`, `fullScans`, `bisections` are ghost instrumentation. -/
structure LoopState where
  total : Nat
  counted : List Int
  log : List FetchParams
  idx : Nat
  previous_oldest : Option Int
  first_iteration : Bool
  api_ignoring_start : Bool
  detection : Bool
  fullScans : Nat
  bisections : Nat
deriving DecidableEq

/-- Initial loop state (lines 129-144 of the source). -/
def count_init_state : LoopState :=
  { total := 0, counted := [], log := [], idx := 0, previous_oldest := none,
    first_iteration := true, api_ignoring_start := false, detection := false,
    fullScans := 0, bisections := 0 }

/-- The per-message filter of lines 207-230.  When `api_ignoring_start` the
source compares against `original_start`, otherwise against
`start_timetoken`; these are the same value (line 131 sets
`original_start = start_timetoken` and neither is ever reassigned), so both
arms test the same bound.  The `end` filter (line 226) always applies. -/
def include_pred (api_ignoring_start : Bool) (start_timetoken end_timetoken : Option Int)
    (t : Int) : Bool :=
  let start_ok :=
    if api_ignoring_start then
      !(otruthy start_timetoken && decide (t ≤ oval start_timetoken))
    else
      !(otruthy start_timetoken && decide (t ≤ oval start_timetoken))
  start_ok && !(otruthy end_timetoken && decide (oval end_timetoken < t))

/-- What the body of the main loop decides to do after receiving a batch:
return (`break`), continue with a new cursor, enter the full-scan
sub-procedure (`count_all_messages`), or enter the backward-bisection
sub-procedure (`find_actual_start_near_end`, with the `original_start` and
`end_timetoken` arguments it is called with). -/
inductive StepRes where
  | ret (st : LoopState)
  | next (st : LoopState) (cursor : Option Int)
  | fullScan (st : LoopState)
  | bisect (original_start end_timetoken : Int) (st : LoopState)
deriving DecidableEq

/-- Lines 184-189: the first-iteration check that the store ignored the
requested `start` (batch oldest exceeds the cursor by more than 10^14). -/
def detect_ignoring (current_start : Option Int) (first_iteration : Bool)
    (msgs : List Int) : Bool :=
  first_iteration && otruthy current_start && decide (0 < msgs.length) &&
  decide (oval current_start < list_min msgs - 100000000000000)

/-- Line 196: the end timetoken is more than 10^15 beyond the batch newest. -/
def far_future_end (end_timetoken : Option Int) (msgs : List Int) : Bool :=
  otruthy end_timetoken &&
  decide (list_max msgs + 1000000000000000 < oval end_timetoken)

/-- The `break` conditions of lines 253-296, in source order; every one of
them breaks with the same accumulated state, so they are collected into one
disjunction: newest beyond `end` (257), `current_start` truthy and newest at
or beyond `end` (263), empty raw batch (270), no matches in a short batch
(274), short raw batch (279), whole batch beyond `end` (287), and the
ignoring-start past-end check (292-296). -/
def should_stop_after (end_timetoken current_start : Option Int)
    (batch_count raw_count : Nat) (api_ignoring_start : Bool) (msgs : List Int) : Bool :=
  (decide (0 < raw_count) && otruthy end_timetoken &&
    decide (oval end_timetoken < list_max msgs)) ||
  (decide (0 < raw_count) && otruthy end_timetoken && otruthy current_start &&
    decide (oval end_timetoken ≤ list_max msgs)) ||
  (batch_count == 0 && raw_count == 0) ||
  (batch_count == 0 && decide (raw_count < 100)) ||
  decide (raw_count < 100) ||
  (otruthy end_timetoken && decide (0 < raw_count) &&
    decide (oval end_timetoken < list_min msgs)) ||
  (api_ignoring_start && otruthy end_timetoken && decide (0 < raw_count) &&
    decide (oval end_timetoken < list_max msgs) && batch_count == 0)

/-- Line 305: `if previous_oldest_timetoken and oldest_timetoken >=
previous_oldest_timetoken` — Python truthiness makes a previous oldest of 0
skip the guard.  Both arms of the guarded block (307-314) `break`. -/
def nonprogress_guard (previous_oldest : Option Int) (oldest : Int) : Bool :=
  match previous_oldest with
  | some p => decide (p ≠ 0) && decide (p ≤ oldest)
  | none => false

/-- Lines 183-326 of `count_messages_in_channel`: everything the loop body
does with a successfully fetched batch, in source order: ignored-start
detection and sub-procedure dispatch (184-203), filtering (207-230),
accumulation (251), the ordered termination checks (253-296, collapsed into
`should_stop_after` since each breaks with the same state), next-cursor
computation (298-302), the non-progress guard (304-314, both arms break),
and the cursor update and final boundary check (316-326). -/
def processBatch (start_timetoken end_timetoken current_start : Option Int)
    (st : LoopState) (msgs : List Int) : StepRes :=
  let detected := detect_ignoring current_start st.first_iteration msgs
  let st1 := if detected then
      { st with api_ignoring_start := true, detection := true } else st
  if detected && far_future_end end_timetoken msgs then
    .fullScan { st1 with fullScans := st1.fullScans + 1 }
  else if detected && otruthy end_timetoken then
    .bisect (oval start_timetoken) (oval end_timetoken)
      { st1 with bisections := st1.bisections + 1 }
  else
    let filtered := msgs.filter
        (include_pred st1.api_ignoring_start start_timetoken end_timetoken)
    let st3 := { st1 with
                 first_iteration := false
                 total := st1.total + filtered.length
                 counted := st1.counted ++ filtered }
    if should_stop_after end_timetoken current_start filtered.length msgs.length
        st1.api_ignoring_start msgs then
      .ret st3
    else
      let oldest := if decide (0 < filtered.length) then list_min filtered
                    else list_min msgs
      if nonprogress_guard st3.previous_oldest oldest then .ret st3
      else
        let st4 := { st3 with previous_oldest := some oldest }
        if otruthy end_timetoken && decide (oval end_timetoken < oldest) then .ret st4
        else .next st4 (some oldest)

/-- Outcome of `find_actual_start_near_end`: a returned count (with the ghost
list of timetokens that matched, the fetch requests issued, and the next
stream index), or a transport exception propagating to the caller. -/
inductive BisectResult where
  | ok (count : Nat) (matched : List Int) (log : List FetchParams) (idx : Nat)
  | raised (log : List FetchParams) (idx : Nat)
deriving DecidableEq

/-- The fixed ascending window widths of lines 43-49. -/
def search_ranges : List Int :=
  [20000000, 50000000, 100000000, 1000000000, 10000000000]

/-- The fetch parameters built at lines 54-67 for window width `range_size`:
`start = max(end - range_size, original_start)` (written as in the source),
`end = end_timetoken`, limit 100. -/
def bisect_fetch_params (channel : String) (original_start end_timetoken range_size : Int) :
    FetchParams :=
  { channel := channel, count := 100,
    start_tt := some (if end_timetoken - range_size < original_start then original_start
                      else end_timetoken - range_size),
    end_tt := some end_timetoken }

/-- Lines 53-104 of `find_actual_start_near_end`: walk the widths in order;
an error status or missing channel skips to the next width; the first
non-empty batch is counted with `original_start < token <= end_timetoken`
and returned immediately (regardless of whether the batch was full); an
empty batch skips to the next width; exhausting all widths returns 0.  A
transport exception is not caught here and propagates (`raised`). -/
def find_actual_go (store : Store) (channel : String)
    (original_start end_timetoken : Int) :
    List Int → Nat → List FetchParams → BisectResult
  | [], idx, log => .ok 0 [] log idx
  | range_size :: rest, idx, log =>
    let fp := bisect_fetch_params channel original_start end_timetoken range_size
    let log1 := log ++ [fp]
    match store idx with
    | .transportError => .raised log1 (idx + 1)
    | .storeError =>
      find_actual_go store channel original_start end_timetoken rest (idx + 1) log1
    | .channelMissing =>
      find_actual_go store channel original_start end_timetoken rest (idx + 1) log1
    | .batch msgs =>
      if decide (0 < msgs.length) then
        let matched := msgs.filter
            (fun t => decide (original_start < t) && decide (t ≤ end_timetoken))
        .ok matched.length matched log1 (idx + 1)
      else
        find_actual_go store channel original_start end_timetoken rest (idx + 1) log1

/-- `find_actual_start_near_end(pubnub, channel, original_start, end_timetoken)`,
entered with `idx` fetches already issued by the caller. -/
def find_actual_start_near_end (store : Store) (channel : String)
    (original_start end_timetoken : Int) (idx : Nat) : BisectResult :=
  find_actual_go store channel original_start end_timetoken search_ranges idx []

/-- Lines 150-169: one iteration builds the fetch parameters, appends them
to the ghost request log, and advances the response-stream index (the fetch
is then answered by `store st.idx`). -/
def fetchLogged (channel : String) (end_timetoken current_start : Option Int)
    (st : LoopState) : LoopState :=
  { st with
    log := st.log ++ [main_fetch_params channel end_timetoken current_start
                        st.api_ignoring_start]
    idx := st.idx + 1 }

/-- The fresh local state of the nested `count_messages_in_channel(pubnub,
channel, None, None)` call made by `count_all_messages` (line 113): new loop
variables, ghost accumulators carried over; `total`/`counted` restart at
zero because the outer `return` discards the outer accumulation. -/
def fullScanReset (st : LoopState) : LoopState :=
  { st with
    total := 0
    counted := []
    previous_oldest := none
    first_iteration := true
    api_ignoring_start := false }

/-- How `return find_actual_start_near_end(...)` (line 203) ends the outer
call: a returned count replaces the total (and its matched tokens are the
counted ones); a raised transport exception is caught by the outer `except`
(line 328), which breaks and returns the accumulated total unchanged. -/
def bisectMerge (st : LoopState) (r : BisectResult) : LoopState :=
  match r with
  | .ok c matched blog bidx =>
    { st with total := c, counted := matched, log := st.log ++ blog, idx := bidx }
  | .raised blog bidx =>
    { st with log := st.log ++ blog, idx := bidx }

/-- The `while True:` loop of `count_messages_in_channel`, on fuel.  Each
iteration builds the fetch parameters (150-164), issues the fetch (169), and
handles the response: an error status (171), a missing channel (176), or a
raised transport/`PubNubException` (328-333) all `break` and return the
accumulated total; a batch goes through `processBatch`.  The full-scan
branch models `return count_all_messages(pubnub, channel)` =
`return count_messages_in_channel(pubnub, channel, None, None)`: a fresh
nested run over the same response stream, whose total is returned (the
outer accumulation is discarded, exactly as `return` does).  The bisection
branch models `return find_actual_start_near_end(...)` via `bisectMerge`. -/
def countLoopGo (store : Store) (channel : String) :
    Nat → Option Int → Option Int → Option Int → LoopState → LoopState
  | 0, _, _, _, st => st
  | fuel + 1, start_timetoken, end_timetoken, current_start, st =>
    match store st.idx with
    | .transportError => fetchLogged channel end_timetoken current_start st
    | .storeError => fetchLogged channel end_timetoken current_start st
    | .channelMissing => fetchLogged channel end_timetoken current_start st
    | .batch msgs =>
      match processBatch start_timetoken end_timetoken current_start
          (fetchLogged channel end_timetoken current_start st) msgs with
      | .ret st2 => st2
      | .next st2 cursor =>
        countLoopGo store channel fuel start_timetoken end_timetoken cursor st2
      | .fullScan st2 =>
        countLoopGo store channel fuel none none none (fullScanReset st2)
      | .bisect s0 e0 st2 =>
        bisectMerge st2 (find_actual_start_near_end store channel s0 e0 st2.idx)

/-- `count_messages_in_channel(pubnub, channel, start_timetoken, end_timetoken)`
run on a response stream with the given fuel; `current_start` starts at
`start_timetoken` (line 130). -/
def count_messages_in_channel (store : Store) (channel : String)
    (start_timetoken end_timetoken : Option Int) (fuel : Nat) : LoopState :=
  countLoopGo store channel fuel start_timetoken end_timetoken start_timetoken
    count_init_state

/-- `count_all_messages(pubnub, channel)` (lines 107-113). -/
def count_all_messages (store : Store) (channel : String) (fuel : Nat) : LoopState :=
  count_messages_in_channel store channel none none fuel

/-- Line 388: `if args.start and args.end and args.start >= args.end` —
the validation gate of `main`, with Python truthiness. -/
def main_validation_fails (start_arg end_arg : Option Int) : Bool :=
  otruthy start_arg && otruthy end_arg && decide (oval end_arg ≤ oval start_arg)

/-- Observable outcome of `main`: the process exit code, the fetch requests
issued, and the count printed (absent when validation fails). -/
structure MainResult where
  exitCode : Nat
  log : List FetchParams
  total : Option Nat
deriving DecidableEq

/-- Lines 385-416 of `main`: validate (exit 1 before any store call on
failure), otherwise run the counter and exit 0 with its total. -/
def main_run (store : Store) (channel : String) (start_arg end_arg : Option Int)
    (fuel : Nat) : MainResult :=
  if main_validation_fails start_arg end_arg then
    { exitCode := 1, log := [], total := none }
  else
    let r := count_messages_in_channel store channel start_arg end_arg fuel
    { exitCode := 0, log := r.log, total := some r.total }


def include_ok (start_timetoken end_timetoken : Option Int) (t : Int) : Bool :=
  !(otruthy start_timetoken && decide (t ≤ oval start_timetoken)) &&
  !(otruthy end_timetoken && decide (oval end_timetoken < t))

theorem include_pred_eq (a : Bool) (s e : Option Int) (t : Int) :
    include_pred a s e t = include_ok s e t := by
  cases a <;> rfl

theorem otruthy_eq_some (o : Option Int) (h : otruthy o = true) : o = some (oval o) := by
  cases o with
  | none => simp [otruthy] at h
  | some x => rfl

def stepIsNext : StepRes → Bool
  | .next _ _ => true
  | _ => false

def stepNextCursor : StepRes → Option Int
  | .next _ c => c
  | _ => none

def olt : Option Int → Int → Bool
  | none, _ => false
  | some x, p => decide (x < p)

theorem processBatch_next_spec (s e cs : Option Int) (st st2 : LoopState) (c : Option Int)
    (msgs : List Int) (h : processBatch s e cs st msgs = .next st2 c) :
    st2.fullScans = st.fullScans ∧ st2.bisections = st.bisections ∧
    (st.detection = true → st2.detection = true) ∧
    (∀ t ∈ st2.counted, t ∈ st.counted ∨ include_ok s e t = true) := by
  simp only [processBatch] at h
  repeat' split at h
  all_goals
    first
      | exact StepRes.noConfusion h
      | (cases h
         refine ⟨rfl, rfl, fun hd => by first | rfl | exact hd, fun t ht => ?_⟩
         rcases List.mem_append.mp ht with hl | hr
         · exact Or.inl hl
         · exact Or.inr (by simpa [include_pred_eq] using (List.mem_filter.mp hr).2))

theorem processBatch_fullScan_spec (s e cs : Option Int) (st st2 : LoopState)
    (msgs : List Int) (h : processBatch s e cs st msgs = .fullScan st2) :
    st2.fullScans = st.fullScans + 1 ∧ st2.bisections = st.bisections ∧
    st2.detection = true ∧ st2.counted = st.counted := by
  simp only [processBatch] at h
  repeat' split at h
  all_goals
    first
      | exact StepRes.noConfusion h
      | (cases h; exact ⟨rfl, rfl, rfl, rfl⟩)
      | simp_all

theorem processBatch_bisect_spec (s e cs : Option Int) (st st2 : LoopState)
    (s0 e0 : Int) (msgs : List Int) (h : processBatch s e cs st msgs = .bisect s0 e0 st2) :
    st2.fullScans = st.fullScans ∧ st2.bisections = st.bisections + 1 ∧
    st2.detection = true ∧ st2.counted = st.counted ∧ s0 = oval s ∧ e0 = oval e := by
  simp only [processBatch] at h
  repeat' split at h
  all_goals
    first
      | exact StepRes.noConfusion h
      | (cases h; exact ⟨rfl, rfl, rfl, rfl, rfl, rfl⟩)
      | simp_all

theorem detect_ignoring_false (cs : Option Int) (first_iteration : Bool) (msgs : List Int)
    (h : first_iteration = true → otruthy cs = false) :
    detect_ignoring cs first_iteration msgs = false := by
  cases hf : first_iteration with
  | false => simp [detect_ignoring]
  | true => simp [detect_ignoring, h hf]

theorem processBatch_not_detected (s e cs : Option Int) (st : LoopState) (msgs : List Int)
    (hd : detect_ignoring cs st.first_iteration msgs = false) :
    (∀ st2, processBatch s e cs st msgs = .fullScan st2 → False) ∧
    (∀ s0 e0 st2, processBatch s e cs st msgs = .bisect s0 e0 st2 → False) ∧
    (∀ st2, processBatch s e cs st msgs = .ret st2 →
      st2.detection = st.detection ∧ st2.fullScans = st.fullScans ∧
      st2.bisections = st.bisections) ∧
    (∀ st2 c, processBatch s e cs st msgs = .next st2 c →
      st2.detection = st.detection ∧ st2.fullScans = st.fullScans ∧
      st2.bisections = st.bisections ∧ st2.first_iteration = false) := by
  refine ⟨?_, ?_, ?_, ?_⟩
  · intro st2 h
    simp only [processBatch, hd, Bool.false_and] at h
    repeat' split at h
    all_goals first | exact StepRes.noConfusion h | simp_all
  · intro s0 e0 st2 h
    simp only [processBatch, hd, Bool.false_and] at h
    repeat' split at h
    all_goals first | exact StepRes.noConfusion h | simp_all
  · intro st2 h
    simp only [processBatch, hd, Bool.false_and] at h
    repeat' split at h
    all_goals
      first
        | exact StepRes.noConfusion h
        | (cases h; exact ⟨rfl, rfl, rfl⟩)
        | simp_all
  · intro st2 c h
    simp only [processBatch, hd, Bool.false_and] at h
    repeat' split at h
    all_goals
      first
        | exact StepRes.noConfusion h
        | (cases h; exact ⟨rfl, rfl, rfl, rfl⟩)
        | simp_all

theorem processBatch_next_progress (s e cs : Option Int) (st st2 : LoopState)
    (c : Option Int) (msgs : List Int) (p : Int)
    (h : processBatch s e cs st msgs = .next st2 c)
    (hp : st.previous_oldest = some p) (hp0 : p ≠ 0) : olt c p = true := by
  simp only [processBatch] at h
  repeat' split at h
  all_goals
    first
      | exact StepRes.noConfusion h
      | (cases h
         simp_all [nonprogress_guard, olt] <;> omega)


theorem processBatch_ret_spec (s e cs : Option Int) (st st2 : LoopState) (msgs : List Int)
    (h : processBatch s e cs st msgs = .ret st2) :
    st2.fullScans = st.fullScans ∧ st2.bisections = st.bisections ∧
    (st.detection = true → st2.detection = true) ∧
    (∀ t ∈ st2.counted, t ∈ st.counted ∨ include_ok s e t = true) := by
  simp only [processBatch] at h
  repeat' split at h
  all_goals
    first
      | exact StepRes.noConfusion h
      | (cases h
         refine ⟨rfl, rfl, fun hd => by first | rfl | exact hd, fun t ht => ?_⟩
         rcases List.mem_append.mp ht with hl | hr
         · exact Or.inl hl
         · exact Or.inr (by simpa [include_pred_eq] using (List.mem_filter.mp hr).2))

theorem fetchLogged_ghost (ch : String) (e cs : Option Int) (st : LoopState) :
    (fetchLogged ch e cs st).total = st.total ∧
    (fetchLogged ch e cs st).counted = st.counted ∧
    (fetchLogged ch e cs st).detection = st.detection ∧
    (fetchLogged ch e cs st).fullScans = st.fullScans ∧
    (fetchLogged ch e cs st).bisections = st.bisections :=
  ⟨rfl, rfl, rfl, rfl, rfl⟩

theorem fullScanReset_ghost (st : LoopState) :
    (fullScanReset st).detection = st.detection ∧
    (fullScanReset st).fullScans = st.fullScans ∧
    (fullScanReset st).bisections = st.bisections :=
  ⟨rfl, rfl, rfl⟩

/-- Ordering on the ghost instrumentation: sub-procedure counters can only
grow and the detection flag is never cleared. -/
def GhostLe (a b : LoopState) : Prop :=
  a.fullScans ≤ b.fullScans ∧ a.bisections ≤ b.bisections ∧
  (a.detection = true → b.detection = true)

theorem GhostLe.rfl (a : LoopState) : GhostLe a a :=
  ⟨le_refl _, le_refl _, fun h => h⟩

theorem GhostLe.trans {a b c : LoopState} (h1 : GhostLe a b) (h2 : GhostLe b c) :
    GhostLe a c :=
  ⟨le_trans h1.1 h2.1, le_trans h1.2.1 h2.2.1, fun h => h2.2.2 (h1.2.2 h)⟩

theorem bisectMerge_ghost (st : LoopState) (r : BisectResult) :
    (bisectMerge st r).fullScans = st.fullScans ∧
    (bisectMerge st r).bisections = st.bisections ∧
    (bisectMerge st r).detection = st.detection := by
  cases r <;> exact ⟨Eq.refl _, Eq.refl _, Eq.refl _⟩

/-- Across any run of the main loop, the ghost sub-procedure counters never
decrease and detection is never cleared. -/
theorem countLoopGo_ghost_le (store : Store) (ch : String) :
    ∀ (fuel : Nat) (s e cs : Option Int) (st : LoopState),
      GhostLe st (countLoopGo store ch fuel s e cs st) := by
  intro fuel
  induction fuel with
  | zero => intro s e cs st; exact GhostLe.rfl st
  | succ n ih =>
    intro s e cs st
    rw [countLoopGo]
    split
    · exact GhostLe.rfl st
    · exact GhostLe.rfl st
    · exact GhostLe.rfl st
    split
    · next st2 heq =>
      obtain ⟨h1, h2, h3, _⟩ := processBatch_ret_spec _ _ _ _ _ _ heq
      exact ⟨le_of_eq h1.symm, le_of_eq h2.symm, h3⟩
    · next st2 cursor heq =>
      obtain ⟨h1, h2, h3, _⟩ := processBatch_next_spec _ _ _ _ _ _ _ heq
      exact GhostLe.trans ⟨le_of_eq h1.symm, le_of_eq h2.symm, h3⟩ (ih s e cursor st2)
    · next st2 heq =>
      obtain ⟨h1, h2, h3, _⟩ := processBatch_fullScan_spec _ _ _ _ _ _ heq
      obtain ⟨-, -, hd, hf, hb⟩ := fetchLogged_ghost ch e cs st
      obtain ⟨r1, r2, r3⟩ := fullScanReset_ghost st2
      refine GhostLe.trans ?_ (ih none none none (fullScanReset st2))
      exact ⟨by omega, by omega, fun _ => by rw [r1]; exact h3⟩
    · next s0 e0 st2 heq =>
      obtain ⟨h1, h2, h3, _⟩ := processBatch_bisect_spec _ _ _ _ _ _ _ _ heq
      obtain ⟨-, -, hd, hf, hb⟩ := fetchLogged_ghost ch e cs st
      obtain ⟨g1, g2, g3⟩ := bisectMerge_ghost st2
        (find_actual_start_near_end store ch s0 e0 st2.idx)
      exact ⟨by omega, by omega, fun _ => by rw [g3]; exact h3⟩


theorem processBatch_no_end (s cs : Option Int) (st : LoopState) (msgs : List Int) :
    (∀ st2, processBatch s none cs st msgs = .fullScan st2 → False) ∧
    (∀ s0 e0 st2, processBatch s none cs st msgs = .bisect s0 e0 st2 → False) := by
  constructor
  · intro st2 h
    simp only [processBatch] at h
    repeat' split at h
    all_goals first | exact StepRes.noConfusion h | simp_all [far_future_end, otruthy]
  · intro s0 e0 st2 h
    simp only [processBatch] at h
    repeat' split at h
    all_goals first | exact StepRes.noConfusion h | simp_all [far_future_end, otruthy]

/-- A run in which detection cannot fire (the cursor is not truthy whenever
`first_iteration` still holds — in particular any run started without a
`start` bound) leaves every ghost field exactly unchanged: no sub-procedure
is ever entered and detection never fires. -/
theorem countLoopGo_ghost_eq_of_no_detect (store : Store) (ch : String) :
    ∀ (fuel : Nat) (s e cs : Option Int) (st : LoopState),
      (st.first_iteration = true → otruthy cs = false) →
      (countLoopGo store ch fuel s e cs st).fullScans = st.fullScans ∧
      (countLoopGo store ch fuel s e cs st).bisections = st.bisections ∧
      (countLoopGo store ch fuel s e cs st).detection = st.detection := by
  intro fuel
  induction fuel with
  | zero => intro s e cs st _; exact ⟨rfl, rfl, rfl⟩
  | succ n ih =>
    intro s e cs st hcs
    rw [countLoopGo]
    split
    · exact ⟨rfl, rfl, rfl⟩
    · exact ⟨rfl, rfl, rfl⟩
    · exact ⟨rfl, rfl, rfl⟩
    next msgs hres =>
    have hd : detect_ignoring cs (fetchLogged ch e cs st).first_iteration msgs = false :=
      detect_ignoring_false cs _ msgs hcs
    obtain ⟨hnofs, hnobi, hret, hnext⟩ := processBatch_not_detected s e cs
      (fetchLogged ch e cs st) msgs hd
    split
    · next st2 heq =>
      obtain ⟨d1, d2, d3⟩ := hret st2 heq
      exact ⟨d2, d3, d1⟩
    · next st2 cursor heq =>
      obtain ⟨d1, d2, d3, d4⟩ := hnext st2 cursor heq
      obtain ⟨i1, i2, i3⟩ := ih s e cursor st2 (fun hfi => absurd (d4 ▸ hfi) (by simp))
      exact ⟨by rw [i1, d2]; rfl, by rw [i2, d3]; rfl, by rw [i3, d1]; rfl⟩
    · next st2 heq => exact absurd heq (fun hh => hnofs st2 hh)
    · next s0 e0 st2 heq => exact absurd heq (fun hh => hnobi s0 e0 st2 hh)

/-- Each heuristic sub-procedure is entered at most once per top-level run:
the full-scan counter and the bisection counter each grow by at most one. -/
theorem countLoopGo_sub_le (store : Store) (ch : String) :
    ∀ (fuel : Nat) (s e cs : Option Int) (st : LoopState),
      (countLoopGo store ch fuel s e cs st).fullScans ≤ st.fullScans + 1 ∧
      (countLoopGo store ch fuel s e cs st).bisections ≤ st.bisections + 1 := by
  intro fuel
  induction fuel with
  | zero => intro s e cs st; exact ⟨Nat.le_succ _, Nat.le_succ _⟩
  | succ n ih =>
    intro s e cs st
    rw [countLoopGo]
    split
    · exact ⟨Nat.le_succ _, Nat.le_succ _⟩
    · exact ⟨Nat.le_succ _, Nat.le_succ _⟩
    · exact ⟨Nat.le_succ _, Nat.le_succ _⟩
    obtain ⟨-, -, -, ff, fb⟩ := fetchLogged_ghost ch e cs st
    split
    · next st2 heq =>
      obtain ⟨h1, h2, _, _⟩ := processBatch_ret_spec _ _ _ _ _ _ heq
      exact ⟨by omega, by omega⟩
    · next st2 cursor heq =>
      obtain ⟨h1, h2, _, _⟩ := processBatch_next_spec _ _ _ _ _ _ _ heq
      obtain ⟨i1, i2⟩ := ih s e cursor st2
      exact ⟨by omega, by omega⟩
    · next st2 heq =>
      obtain ⟨h1, h2, _, _⟩ := processBatch_fullScan_spec _ _ _ _ _ _ heq
      obtain ⟨r1, r2, r3⟩ := fullScanReset_ghost st2
      obtain ⟨i1, i2, i3⟩ := countLoopGo_ghost_eq_of_no_detect store ch n none none none
        (fullScanReset st2) (fun _ => by simp [otruthy])
      exact ⟨by omega, by omega⟩
    · next s0 e0 st2 heq =>
      obtain ⟨h1, h2, _, _⟩ := processBatch_bisect_spec _ _ _ _ _ _ _ _ heq
      obtain ⟨g1, g2, g3⟩ := bisectMerge_ghost st2
        (find_actual_start_near_end store ch s0 e0 st2.idx)
      exact ⟨by omega, by omega⟩

/-- With no end bound, neither heuristic sub-procedure can ever be entered
(both dispatch guards require a truthy `end_timetoken`). -/
theorem countLoopGo_no_end (store : Store) (ch : String) :
    ∀ (fuel : Nat) (s cs : Option Int) (st : LoopState),
      (countLoopGo store ch fuel s none cs st).fullScans = st.fullScans ∧
      (countLoopGo store ch fuel s none cs st).bisections = st.bisections := by
  intro fuel
  induction fuel with
  | zero => intro s cs st; exact ⟨rfl, rfl⟩
  | succ n ih =>
    intro s cs st
    rw [countLoopGo]
    split
    · exact ⟨rfl, rfl⟩
    · exact ⟨rfl, rfl⟩
    · exact ⟨rfl, rfl⟩
    next msgs hres =>
    obtain ⟨hnofs, hnobi⟩ := processBatch_no_end s cs (fetchLogged ch none cs st) msgs
    split
    · next st2 heq =>
      obtain ⟨h1, h2, _, _⟩ := processBatch_ret_spec _ _ _ _ _ _ heq
      exact ⟨h1, h2⟩
    · next st2 cursor heq =>
      obtain ⟨h1, h2, _, _⟩ := processBatch_next_spec _ _ _ _ _ _ _ heq
      obtain ⟨i1, i2⟩ := ih s cursor st2
      exact ⟨by rw [i1, h1]; rfl, by rw [i2, h2]; rfl⟩
    · next st2 heq => exact absurd heq (fun hh => hnofs st2 hh)
    · next s0 e0 st2 heq => exact absurd heq (fun hh => hnobi s0 e0 st2 hh)

theorem find_actual_go_ok_spec (store : Store) (ch : String) (s0 e0 : Int) :
    ∀ (ranges : List Int) (idx : Nat) (log : List FetchParams)
      (c : Nat) (matched : List Int) (blog : List FetchParams) (bidx : Nat),
      find_actual_go store ch s0 e0 ranges idx log = .ok c matched blog bidx →
      c = matched.length ∧ ∀ t ∈ matched, s0 < t ∧ t ≤ e0 := by
  intro ranges
  induction ranges with
  | nil =>
    intro idx log c matched blog bidx h
    simp only [find_actual_go] at h
    cases h
    exact ⟨rfl, by simp⟩
  | cons w rest ih =>
    intro idx log c matched blog bidx h
    simp only [find_actual_go] at h
    split at h
    · exact BisectResult.noConfusion h
    · exact ih _ _ _ _ _ _ h
    · exact ih _ _ _ _ _ _ h
    · split at h
      · cases h
        refine ⟨rfl, fun t ht => ?_⟩
        have := (List.mem_filter.mp ht).2
        simp only [Bool.and_eq_true, decide_eq_true_eq] at this
        exact this
      · exact ih _ _ _ _ _ _ h


theorem countLoopGo_succ_eq (store : Store) (ch : String) (n : Nat)
    (s e cs : Option Int) (st : LoopState) :
    countLoopGo store ch (n + 1) s e cs st =
      match store st.idx with
      | .transportError => fetchLogged ch e cs st
      | .storeError => fetchLogged ch e cs st
      | .channelMissing => fetchLogged ch e cs st
      | .batch msgs =>
        match processBatch s e cs (fetchLogged ch e cs st) msgs with
        | .ret st2 => st2
        | .next st2 cursor => countLoopGo store ch n s e cursor st2
        | .fullScan st2 => countLoopGo store ch n none none none (fullScanReset st2)
        | .bisect s0 e0 st2 =>
          bisectMerge st2 (find_actual_start_near_end store ch s0 e0 st2.idx) := by
  rw [countLoopGo]

theorem countLoopGo_step_transport (store : Store) (ch : String) {n : Nat}
    {s e cs : Option Int} {st : LoopState} (h : store st.idx = .transportError) :
    countLoopGo store ch (n + 1) s e cs st = fetchLogged ch e cs st := by
  rw [countLoopGo_succ_eq, h]

theorem countLoopGo_step_store_err (store : Store) (ch : String) {n : Nat}
    {s e cs : Option Int} {st : LoopState} (h : store st.idx = .storeError) :
    countLoopGo store ch (n + 1) s e cs st = fetchLogged ch e cs st := by
  rw [countLoopGo_succ_eq, h]

theorem countLoopGo_step_missing (store : Store) (ch : String) {n : Nat}
    {s e cs : Option Int} {st : LoopState} (h : store st.idx = .channelMissing) :
    countLoopGo store ch (n + 1) s e cs st = fetchLogged ch e cs st := by
  rw [countLoopGo_succ_eq, h]

theorem countLoopGo_step_ret (store : Store) (ch : String) {n : Nat}
    {s e cs : Option Int} {st st2 : LoopState} {msgs : List Int}
    (h1 : store st.idx = .batch msgs)
    (h2 : processBatch s e cs (fetchLogged ch e cs st) msgs = .ret st2) :
    countLoopGo store ch (n + 1) s e cs st = st2 := by
  rw [countLoopGo_succ_eq, h1]
  dsimp only
  rw [h2]

theorem countLoopGo_step_next (store : Store) (ch : String) {n : Nat}
    {s e cs cursor : Option Int} {st st2 : LoopState} {msgs : List Int}
    (h1 : store st.idx = .batch msgs)
    (h2 : processBatch s e cs (fetchLogged ch e cs st) msgs = .next st2 cursor) :
    countLoopGo store ch (n + 1) s e cs st =
      countLoopGo store ch n s e cursor st2 := by
  rw [countLoopGo_succ_eq, h1]
  dsimp only
  rw [h2]

theorem countLoopGo_step_fullScan (store : Store) (ch : String) {n : Nat}
    {s e cs : Option Int} {st st2 : LoopState} {msgs : List Int}
    (h1 : store st.idx = .batch msgs)
    (h2 : processBatch s e cs (fetchLogged ch e cs st) msgs = .fullScan st2) :
    countLoopGo store ch (n + 1) s e cs st =
      countLoopGo store ch n none none none (fullScanReset st2) := by
  rw [countLoopGo_succ_eq, h1]
  dsimp only
  rw [h2]

theorem countLoopGo_step_bisect (store : Store) (ch : String) {n : Nat}
    {s e cs : Option Int} {st st2 : LoopState} {msgs : List Int} {s0 e0 : Int}
    (h1 : store st.idx = .batch msgs)
    (h2 : processBatch s e cs (fetchLogged ch e cs st) msgs = .bisect s0 e0 st2) :
    countLoopGo store ch (n + 1) s e cs st =
      bisectMerge st2 (find_actual_start_near_end store ch s0 e0 st2.idx) := by
  rw [countLoopGo_succ_eq, h1]
  dsimp only
  rw [h2]

theorem include_ok_le_end {s : Option Int} {e t : Int} (he : e ≠ 0)
    (h : include_ok s (some e) t = true) : t ≤ e := by
  simp only [include_ok, Bool.and_eq_true] at h
  have h2 := h.2
  simp only [otruthy, oval, Bool.not_eq_true', Bool.and_eq_false_iff,
    decide_eq_false_iff_not, decide_eq_true_eq] at h2
  rcases h2 with h2 | h2
  · exact absurd he h2
  · omega

theorem include_ok_gt_start {e : Option Int} {s t : Int} (hs : s ≠ 0)
    (h : include_ok (some s) e t = true) : s < t := by
  simp only [include_ok, Bool.and_eq_true] at h
  have h2 := h.1
  simp only [otruthy, oval, Bool.not_eq_true', Bool.and_eq_false_iff,
    decide_eq_false_iff_not, decide_eq_true_eq] at h2
  rcases h2 with h2 | h2
  · exact absurd hs h2
  · omega


/-- If a run with a nonzero `end` bound never enters the full-scan
sub-procedure, every token it adds to the counted list is at most `end`:
the main-loop filter and the bisection filter both enforce the inclusive
end bound. -/
theorem countLoopGo_counted_le_end (store : Store) (ch : String) (e : Int) (he : e ≠ 0) :
    ∀ (fuel : Nat) (s cs : Option Int) (st : LoopState),
      (countLoopGo store ch fuel s (some e) cs st).fullScans = st.fullScans →
      ∀ t ∈ (countLoopGo store ch fuel s (some e) cs st).counted,
        t ∈ st.counted ∨ t ≤ e := by
  intro fuel
  induction fuel with
  | zero => intro s cs st _ t ht; exact Or.inl ht
  | succ n ih =>
    intro s cs st hfs t ht
    rcases hres : store st.idx with _ | _ | _ | msgs
    · rw [countLoopGo_step_transport store ch hres] at ht; exact Or.inl ht
    · rw [countLoopGo_step_store_err store ch hres] at ht; exact Or.inl ht
    · rw [countLoopGo_step_missing store ch hres] at ht; exact Or.inl ht
    · rcases hpb : processBatch s (some e) cs (fetchLogged ch (some e) cs st) msgs with
        st2 | ⟨st2, cursor⟩ | st2 | ⟨s0, e0, st2⟩
      · rw [countLoopGo_step_ret store ch hres hpb] at ht
        obtain ⟨_, _, _, hc⟩ := processBatch_ret_spec _ _ _ _ _ _ hpb
        rcases hc t ht with hin | hok
        · exact Or.inl hin
        · exact Or.inr (include_ok_le_end he hok)
      · rw [countLoopGo_step_next store ch hres hpb] at ht hfs
        obtain ⟨hf, _, _, hc⟩ := processBatch_next_spec _ _ _ _ _ _ _ hpb
        have hfs2 : (countLoopGo store ch n s (some e) cursor st2).fullScans =
            st2.fullScans := by rw [hfs, hf]; rfl
        rcases ih s cursor st2 hfs2 t ht with hin | hle
        · rcases hc t hin with hin2 | hok
          · exact Or.inl hin2
          · exact Or.inr (include_ok_le_end he hok)
        · exact Or.inr hle
      · exfalso
        rw [countLoopGo_step_fullScan store ch hres hpb] at hfs
        obtain ⟨hf, _, _, _⟩ := processBatch_fullScan_spec _ _ _ _ _ _ hpb
        obtain ⟨gl, _, _⟩ := countLoopGo_ghost_le store ch n none none none
          (fullScanReset st2)
        obtain ⟨-, -, -, ff, -⟩ := fetchLogged_ghost ch (some e) cs st
        obtain ⟨-, rf, -⟩ := fullScanReset_ghost st2
        omega
      · rw [countLoopGo_step_bisect store ch hres hpb] at ht
        obtain ⟨_, _, _, hcnt, hs0, he0⟩ := processBatch_bisect_spec _ _ _ _ _ _ _ _ hpb
        rcases hfa : find_actual_start_near_end store ch s0 e0 st2.idx with
          ⟨c, matched, blog, bidx⟩ | ⟨blog, bidx⟩
        · rw [hfa] at ht
          obtain ⟨-, hmem⟩ := find_actual_go_ok_spec store ch s0 e0 _ _ _ _ _ _ _ hfa
          have hm := hmem t ht
          right
          have he0e : e0 = e := by rw [he0]; rfl
          rw [he0e] at hm
          exact hm.2
        · rw [hfa] at ht
          exact Or.inl (hcnt ▸ ht)

/-- In a run with a nonzero `start` bound in which ignored-start detection
never fires, every counted token strictly exceeds `start`: the filter always
compares against the caller's original `start`, never the advancing cursor. -/
theorem countLoopGo_counted_gt_start (store : Store) (ch : String) (s : Int) (hs : s ≠ 0) :
    ∀ (fuel : Nat) (e cs : Option Int) (st : LoopState),
      (countLoopGo store ch fuel (some s) e cs st).detection = false →
      ∀ t ∈ (countLoopGo store ch fuel (some s) e cs st).counted,
        t ∈ st.counted ∨ s < t := by
  intro fuel
  induction fuel with
  | zero => intro e cs st _ t ht; exact Or.inl ht
  | succ n ih =>
    intro e cs st hdet t ht
    rcases hres : store st.idx with _ | _ | _ | msgs
    · rw [countLoopGo_step_transport store ch hres] at ht; exact Or.inl ht
    · rw [countLoopGo_step_store_err store ch hres] at ht; exact Or.inl ht
    · rw [countLoopGo_step_missing store ch hres] at ht; exact Or.inl ht
    · rcases hpb : processBatch (some s) e cs (fetchLogged ch e cs st) msgs with
        st2 | ⟨st2, cursor⟩ | st2 | ⟨s0, e0, st2⟩
      · rw [countLoopGo_step_ret store ch hres hpb] at ht
        obtain ⟨_, _, _, hc⟩ := processBatch_ret_spec _ _ _ _ _ _ hpb
        rcases hc t ht with hin | hok
        · exact Or.inl hin
        · exact Or.inr (include_ok_gt_start hs hok)
      · rw [countLoopGo_step_next store ch hres hpb] at ht hdet
        obtain ⟨_, _, _, hc⟩ := processBatch_next_spec _ _ _ _ _ _ _ hpb
        rcases ih e cursor st2 hdet t ht with hin | hgt
        · rcases hc t hin with hin2 | hok
          · exact Or.inl hin2
          · exact Or.inr (include_ok_gt_start hs hok)
        · exact Or.inr hgt
      · exfalso
        rw [countLoopGo_step_fullScan store ch hres hpb] at hdet
        obtain ⟨_, _, hd, _⟩ := processBatch_fullScan_spec _ _ _ _ _ _ hpb
        obtain ⟨-, -, gd⟩ := countLoopGo_ghost_le store ch n none none none
          (fullScanReset st2)
        obtain ⟨r1, -, -⟩ := fullScanReset_ghost st2
        rw [gd (by rw [r1]; exact hd)] at hdet
        exact Bool.noConfusion hdet
      · exfalso
        rw [countLoopGo_step_bisect store ch hres hpb] at hdet
        obtain ⟨_, _, hd, _, _, _⟩ := processBatch_bisect_spec _ _ _ _ _ _ _ _ hpb
        obtain ⟨-, -, g3⟩ := bisectMerge_ghost st2
          (find_actual_start_near_end store ch s0 e0 st2.idx)
        rw [g3, hd] at hdet
        exact Bool.noConfusion hdet


theorem normOpt_congr {a b : Option Int} (h1 : otruthy a = otruthy b)
    (h2 : oval a = oval b) : normOpt a = normOpt b := by
  unfold normOpt
  rw [h1]
  cases htb : otruthy b with
  | false => simp
  | true =>
    show a = b
    rw [otruthy_eq_some a (h1.trans htb), otruthy_eq_some b htb, h2]

theorem pEndParam_congr {a b : Option Int} (h1 : otruthy a = otruthy b)
    (h2 : oval a = oval b) (api : Bool) : pEndParam api a = pEndParam api b := by
  unfold pEndParam
  rw [h1, h2]
  cases hta : otruthy b with
  | false => simp
  | true =>
    split
    · rw [otruthy_eq_some a (h1.trans hta), otruthy_eq_some b hta, h2]
    · rfl

theorem fetchLogged_congr (ch : String) {e1 e2 cs1 cs2 : Option Int} (st : LoopState)
    (he1 : otruthy e1 = otruthy e2) (he2 : oval e1 = oval e2)
    (hc1 : otruthy cs1 = otruthy cs2) (hc2 : oval cs1 = oval cs2) :
    fetchLogged ch e1 cs1 st = fetchLogged ch e2 cs2 st := by
  unfold fetchLogged main_fetch_params
  rw [normOpt_congr hc1 hc2, pEndParam_congr he1 he2]

theorem include_pred_congr {s1 s2 e1 e2 : Option Int}
    (hs1 : otruthy s1 = otruthy s2) (hs2 : oval s1 = oval s2)
    (he1 : otruthy e1 = otruthy e2) (he2 : oval e1 = oval e2) (a : Bool) :
    include_pred a s1 e1 = include_pred a s2 e2 := by
  funext t
  rw [include_pred_eq, include_pred_eq]
  unfold include_ok
  rw [hs1, hs2, he1, he2]

theorem processBatch_congr {s1 s2 e1 e2 cs1 cs2 : Option Int} (st : LoopState)
    (msgs : List Int)
    (hs1 : otruthy s1 = otruthy s2) (hs2 : oval s1 = oval s2)
    (he1 : otruthy e1 = otruthy e2) (he2 : oval e1 = oval e2)
    (hc1 : otruthy cs1 = otruthy cs2) (hc2 : oval cs1 = oval cs2) :
    processBatch s1 e1 cs1 st msgs = processBatch s2 e2 cs2 st msgs := by
  have hdet : detect_ignoring cs1 st.first_iteration msgs =
      detect_ignoring cs2 st.first_iteration msgs := by
    unfold detect_ignoring; rw [hc1, hc2]
  have hfar : far_future_end e1 msgs = far_future_end e2 msgs := by
    unfold far_future_end; rw [he1, he2]
  have hstop : ∀ (bc rc : Nat) (a : Bool),
      should_stop_after e1 cs1 bc rc a msgs = should_stop_after e2 cs2 bc rc a msgs := by
    intro bc rc a; unfold should_stop_after; rw [he1, he2, hc1]
  have hfil := include_pred_congr hs1 hs2 he1 he2
  simp only [processBatch, hdet, hfar, hstop, hfil, hs2, he1, he2]

/-- The loop depends on `start_timetoken`, `end_timetoken` and the cursor
only through Python truthiness and the underlying value: option arguments
that agree on both (in particular `some 0` versus `none`) produce identical
runs. -/
theorem countLoopGo_congr (store : Store) (ch : String) :
    ∀ (fuel : Nat) (s1 s2 e1 e2 cs1 cs2 : Option Int) (st : LoopState),
      otruthy s1 = otruthy s2 → oval s1 = oval s2 →
      otruthy e1 = otruthy e2 → oval e1 = oval e2 →
      otruthy cs1 = otruthy cs2 → oval cs1 = oval cs2 →
      countLoopGo store ch fuel s1 e1 cs1 st = countLoopGo store ch fuel s2 e2 cs2 st := by
  intro fuel
  induction fuel with
  | zero => intro s1 s2 e1 e2 cs1 cs2 st _ _ _ _ _ _; rfl
  | succ n ih =>
    intro s1 s2 e1 e2 cs1 cs2 st hs1 hs2 he1 he2 hc1 hc2
    have hfl := fetchLogged_congr ch st he1 he2 hc1 hc2
    rcases hres : store st.idx with _ | _ | _ | msgs
    · rw [@countLoopGo_step_transport store ch n s1 e1 cs1 st hres,
          @countLoopGo_step_transport store ch n s2 e2 cs2 st hres]
      exact hfl
    · rw [@countLoopGo_step_store_err store ch n s1 e1 cs1 st hres,
          @countLoopGo_step_store_err store ch n s2 e2 cs2 st hres]
      exact hfl
    · rw [@countLoopGo_step_missing store ch n s1 e1 cs1 st hres,
          @countLoopGo_step_missing store ch n s2 e2 cs2 st hres]
      exact hfl
    · have hpc : processBatch s1 e1 cs1 (fetchLogged ch e1 cs1 st) msgs =
          processBatch s2 e2 cs2 (fetchLogged ch e2 cs2 st) msgs := by
        rw [hfl]
        exact processBatch_congr _ msgs hs1 hs2 he1 he2 hc1 hc2
      rcases hpb : processBatch s2 e2 cs2 (fetchLogged ch e2 cs2 st) msgs with
        st2 | ⟨st2, cursor⟩ | st2 | ⟨s0, e0, st2⟩
      · rw [@countLoopGo_step_ret store ch n s1 e1 cs1 st st2 msgs hres (hpc.trans hpb),
            @countLoopGo_step_ret store ch n s2 e2 cs2 st st2 msgs hres hpb]
      · rw [@countLoopGo_step_next store ch n s1 e1 cs1 cursor st st2 msgs hres
              (hpc.trans hpb),
            @countLoopGo_step_next store ch n s2 e2 cs2 cursor st st2 msgs hres hpb]
        exact ih s1 s2 e1 e2 cursor cursor st2 hs1 hs2 he1 he2 rfl rfl
      · rw [@countLoopGo_step_fullScan store ch n s1 e1 cs1 st st2 msgs hres
              (hpc.trans hpb),
            @countLoopGo_step_fullScan store ch n s2 e2 cs2 st st2 msgs hres hpb]
      · rw [@countLoopGo_step_bisect store ch n s1 e1 cs1 st st2 msgs s0 e0 hres
              (hpc.trans hpb),
            @countLoopGo_step_bisect store ch n s2 e2 cs2 st st2 msgs s0 e0 hres hpb]


/-- Responses that make `find_actual_start_near_end` move on to the next
window width: an error status (line 73), a missing channel (line 76), or an
empty batch. -/
def skip_response : FetchResult → Bool
  | .storeError => true
  | .channelMissing => true
  | .batch msgs => msgs.isEmpty
  | .transportError => false

theorem find_actual_go_first_nonempty (store : Store) (ch : String) (s0 e0 : Int) :
    ∀ (ranges : List Int) (k idx : Nat) (log : List FetchParams) (B : List Int),
      k < ranges.length →
      (∀ j, j < k → skip_response (store (idx + j)) = true) →
      store (idx + k) = .batch B → B ≠ [] →
      find_actual_go store ch s0 e0 ranges idx log =
        .ok (B.filter (fun t => decide (s0 < t) && decide (t ≤ e0))).length
            (B.filter (fun t => decide (s0 < t) && decide (t ≤ e0)))
            (log ++ (ranges.take (k + 1)).map (bisect_fetch_params ch s0 e0))
            (idx + k + 1) := by
  intro ranges
  induction ranges with
  | nil => intro k idx log B hk; exact absurd hk (by simp)
  | cons w rest ih =>
    intro k idx log B hk hskip hbatch hne
    cases k with
    | zero =>
      have hb : store idx = .batch B := by simpa using hbatch
      simp only [find_actual_go, hb]
      have hlen : 0 < B.length := List.length_pos.mpr hne
      rw [if_pos (by simpa using hlen)]
      simp [List.take]
    | succ k2 =>
      have hs0 : skip_response (store idx) = true := by
        have := hskip 0 (Nat.succ_pos k2)
        simpa using this
      have hskip2 : ∀ j, j < k2 → skip_response (store (idx + 1 + j)) = true := by
        intro j hj
        have := hskip (j + 1) (by omega)
        have harith : idx + (j + 1) = idx + 1 + j := by omega
        rwa [harith] at this
      have hbatch2 : store (idx + 1 + k2) = .batch B := by
        have harith : idx + (k2 + 1) = idx + 1 + k2 := by omega
        rwa [harith] at hbatch
      have hrec := ih k2 (idx + 1)
        (log ++ [bisect_fetch_params ch s0 e0 w]) B (by simpa using hk) hskip2 hbatch2 hne
      rcases hres : store idx with _ | _ | _ | msgs
      · rw [hres] at hs0; exact absurd hs0 (by simp [skip_response])
      · simp only [find_actual_go, hres]
        rw [hrec]
        simp [List.take_succ_cons, List.append_assoc]
        omega
      · simp only [find_actual_go, hres]
        rw [hrec]
        simp [List.take_succ_cons, List.append_assoc]
        omega
      · have hmt : msgs = [] := by
          rw [hres] at hs0
          simpa [skip_response, List.isEmpty_iff] using hs0
        simp only [find_actual_go, hres, hmt]
        rw [if_neg (by simp)]
        rw [hrec]
        simp [List.take_succ_cons, List.append_assoc]
        omega


/-- Store for the worked example of the spec (section 8): one short batch
with tokens 150, 160, 201. -/
def store_c6 : Store := fun i => if i = 0 then .batch [150, 160, 201] else .batch []

/-- Store returning a single batch whose only token is far beyond a
requested tiny start cursor, then nothing: triggers ignored-start
detection with no end bound. -/
def store_c1 : Store := fun i => if i = 0 then .batch [1000000000000000] else .batch []

/-- Store whose first batch triggers ignored-start detection with a
far-future end, and whose second (full-scan) batch holds a token beyond
the requested end. -/
def store_c2 : Store := fun i =>
  if i = 0 then .batch [1000000000000000]
  else if i = 1 then .batch [4000000000000000] else .batch []

/-- Store that sends the counter into the bisection sub-procedure, answers
the first bisection width with an error status, and the second width with
one in-range record. -/
def store_c3 : Store := fun i =>
  if i = 0 then .batch [1000000000000000]
  else if i = 1 then .storeError
  else if i = 2 then .batch [1499999999999900] else .batch []

/-- A full batch of 100 tokens 0..99: its oldest token is 0, which defeats
the truthiness-guarded non-progress check. -/
def batch_c5 : List Int := (List.range 100).map (fun i => (i : Int))

/-- Store answering the first two fetches with the same full batch whose
oldest token is 0, then nothing. -/
def store_c5 : Store := fun i => if i ≤ 1 then .batch batch_c5 else .batch []

/-- A state in mid-pagination with a nonzero previous oldest token. -/
def st_c5 : LoopState :=
  { count_init_state with previous_oldest := some 5, first_iteration := false }

/-- A full batch of 100 tokens 3..102 (all below the previous oldest 5 is
not needed; only the minimum 3 matters). -/
def batch_c5w : List Int := (List.range 100).map (fun i => (3 + i : Int))

/-- A store with no messages at all. -/
def store_empty : Store := fun _ => .batch []

/-- A store whose every fetch raises a transport exception. -/
def store_transport : Store := fun _ => .transportError

/-- 100 in-range tokens for the bisection witness. -/
def c4_batch : List Int := (List.range 100).map (fun i => (900 + i : Int))

/-- Store that answers the first bisection width with an empty batch and
the second with a full batch of 100 records. -/
def store_c4 : Store := fun i => if i = 1 then .batch c4_batch else .batch []

/-- C1: with a start token, no end token, and a first batch whose oldest
token exceeds the start cursor by more than 10^14, ignored-start detection
fires but the full-scan sub-procedure is NOT invoked and no further fetch
is issued: the counter returns the single-batch filtered total.  This
contradicts the claim that the counter invokes the unbounded full-scan
sub-procedure and returns its total. -/
theorem claim_C1_counterexample :
    (count_messages_in_channel store_c1 "c" (some 1) none 10).detection = true ∧
    (count_messages_in_channel store_c1 "c" (some 1) none 10).fullScans = 0 ∧
    (count_messages_in_channel store_c1 "c" (some 1) none 10).log.length = 1 ∧
    (count_messages_in_channel store_c1 "c" (some 1) none 10).total = 1 := by
  decide

/-- C1 (amended): when no end token is set, neither the full-scan nor the
bisection sub-procedure can ever be invoked, for any store and any start:
ignored-start detection merely sets the ignoring flag and the main loop
continues filtering against the original start. -/
theorem claim_C1_amended (store : Store) (ch : String) (s : Option Int) (fuel : Nat) :
    (count_messages_in_channel store ch s none fuel).fullScans = 0 ∧
    (count_messages_in_channel store ch s none fuel).bisections = 0 :=
  countLoopGo_no_end store ch fuel s s count_init_state

/-- C2: an ignored-start first batch together with an end more than 10^15
beyond its newest token sends the counter into the unfiltered full scan,
which then counts a token (4*10^15) strictly greater than the requested end
(3*10^15).  This refutes the claim that no record with token > end ever
contributes to the returned count. -/
theorem claim_C2_counterexample :
    (count_messages_in_channel store_c2 "c" (some 1)
      (some 3000000000000000) 10).counted = [4000000000000000] ∧
    (count_messages_in_channel store_c2 "c" (some 1)
      (some 3000000000000000) 10).total = 1 ∧
    ((3000000000000000 : Int) < 4000000000000000) ∧
    (count_messages_in_channel store_c2 "c" (some 1)
      (some 3000000000000000) 10).fullScans = 1 := by
  decide

/-- C2 (amended): if the end token is nonzero (a zero end is treated as
absent by truthiness) and the run never enters the full-scan sub-procedure,
then no counted token exceeds end — the main-loop filter and the bisection
filter both enforce the inclusive end bound. -/
theorem claim_C2_amended (store : Store) (ch : String) (s : Option Int) (fuel : Nat)
    (e : Int) (he : e ≠ 0)
    (hfs : (count_messages_in_channel store ch s (some e) fuel).fullScans = 0) :
    ∀ t ∈ (count_messages_in_channel store ch s (some e) fuel).counted, t ≤ e := by
  intro t ht
  rcases countLoopGo_counted_le_end store ch e he fuel s s count_init_state hfs t ht with
    hin | hle
  · exact absurd hin (by simp [count_init_state])
  · exact hle

theorem claim_C2_witness : (150 : Int) ≤ 200 :=
  claim_C2_amended store_c6 "c" (some 100) 5 200 (by decide) (by decide) 150 (by decide)

/-- C3: inside the backward-bisection sub-procedure a store-level error
response does not terminate the procedure: the error at the first window
width is followed by a fetch at the next width, and the returned total is
that width's count (1), not the accumulated partial count (0).  This
refutes the claim that any store-level error terminates the current
procedure with the accumulated count and that the two error kinds are
treated identically everywhere. -/
theorem claim_C3_counterexample :
    store_c3 1 = FetchResult.storeError ∧
    (count_messages_in_channel store_c3 "c" (some 1)
      (some 1500000000000000) 10).total = 1 ∧
    (count_messages_in_channel store_c3 "c" (some 1)
      (some 1500000000000000) 10).log.length = 3 := by
  decide

/-- C3 (amended): in the main pagination loop the claim does hold, and the
two error kinds are treated identically: a store-level error response and a
transport exception both terminate the loop immediately after the failed
fetch, with no retry, returning the state (total, counted tokens) as
accumulated so far — only the request log and stream index advance. -/
theorem claim_C3_amended (store : Store) (ch : String) (s e cs : Option Int)
    (st : LoopState) (fuel : Nat)
    (h : store st.idx = FetchResult.storeError ∨
         store st.idx = FetchResult.transportError) :
    countLoopGo store ch (fuel + 1) s e cs st = fetchLogged ch e cs st := by
  rcases h with h | h
  · exact countLoopGo_step_store_err store ch h
  · exact countLoopGo_step_transport store ch h

theorem claim_C3_witness :
    countLoopGo store_transport "c" 1 none none none count_init_state =
      fetchLogged "c" none none count_init_state :=
  claim_C3_amended store_transport "c" none none none count_init_state 0 (Or.inr rfl)

/-- C4: the bisection sub-procedure tries exactly the widths 2*10^7, 5*10^7,
10^8, 10^9, 10^10 in that order, each queried with
start = max(end - W, original_start), end = end, limit 100; on the first
width whose batch is non-empty it immediately returns the number of records
with original_start < token <= end, with no condition on the batch size —
so a full 100-record batch is also accepted as final. -/
theorem claim_C4 :
    search_ranges = [20000000, 50000000, 100000000, 1000000000, 10000000000] ∧
    (∀ (ch : String) (s0 e0 w : Int),
      (bisect_fetch_params ch s0 e0 w).start_tt = some (max (e0 - w) s0) ∧
      (bisect_fetch_params ch s0 e0 w).end_tt = some e0 ∧
      (bisect_fetch_params ch s0 e0 w).count = 100) ∧
    (∀ (store : Store) (ch : String) (s0 e0 : Int) (k : Nat) (B : List Int),
      k < search_ranges.length →
      (∀ j, j < k → skip_response (store j) = true) →
      store k = FetchResult.batch B → B ≠ [] →
      find_actual_start_near_end store ch s0 e0 0 =
        .ok (B.filter (fun t => decide (s0 < t) && decide (t ≤ e0))).length
            (B.filter (fun t => decide (s0 < t) && decide (t ≤ e0)))
            ((search_ranges.take (k + 1)).map (bisect_fetch_params ch s0 e0))
            (k + 1)) := by
  refine ⟨rfl, ?_, ?_⟩
  · intro ch s0 e0 w
    refine ⟨?_, rfl, rfl⟩
    show some (if e0 - w < s0 then s0 else e0 - w) = some (max (e0 - w) s0)
    rcases le_or_lt s0 (e0 - w) with h | h
    · rw [if_neg (not_lt.mpr h), max_eq_left h]
    · rw [if_pos h, max_eq_right h.le]
  · intro store ch s0 e0 k B hk hskip hbatch hne
    have hres := find_actual_go_first_nonempty store ch s0 e0 search_ranges k 0 [] B hk
      (fun j hj => by simpa using hskip j hj) (by simpa using hbatch) hne
    simpa [find_actual_start_near_end] using hres

theorem claim_C4_witness :
    (find_actual_start_near_end store_c4 "c" 100 1000000000 0 =
      .ok (c4_batch.filter
            (fun t => decide ((100 : Int) < t) && decide (t ≤ 1000000000))).length
          (c4_batch.filter
            (fun t => decide ((100 : Int) < t) && decide (t ≤ 1000000000)))
          ((search_ranges.take 2).map (bisect_fetch_params "c" 100 1000000000))
          2) ∧
    c4_batch.length = 100 :=
  ⟨claim_C4.2.2 store_c4 "c" 100 1000000000 1 c4_batch (by decide)
    (fun j hj => by
      have hj0 : j = 0 := by omega
      subst hj0
      decide)
    (by decide) (by decide), by decide⟩


/-- C5: when the previous oldest token is 0 Python truthiness skips the
non-progress guard: two successive full batches with oldest token 0 do not
stop the loop — a third fetch is issued, every token is counted twice and
the cursor value repeats.  This refutes the unconditional claim that a
candidate cursor >= the previous oldest always stops the loop before the
next fetch and that no token is ever counted twice. -/
theorem claim_C5_counterexample :
    (count_messages_in_channel store_c5 "c" none none 10).log.length = 3 ∧
    (count_messages_in_channel store_c5 "c" none none 10).counted.count 0 = 2 ∧
    (count_messages_in_channel store_c5 "c" none none 10).total = 200 := by
  decide

/-- C5 (amended): whenever the previous oldest token is nonzero, the loop
body can only continue to another fetch with a strictly smaller next
cursor: if the batch outcome is `next`, the new cursor is strictly below
the previous oldest token.  (Equivalently: a non-decreasing candidate stops
the loop before the next fetch, provided the previous oldest is nonzero;
with a zero previous oldest the truthiness-guarded check is skipped.) -/
theorem claim_C5_amended (s e cs : Option Int) (st : LoopState) (msgs : List Int)
    (p : Int) (hp : st.previous_oldest = some p) (hp0 : p ≠ 0)
    (hn : stepIsNext (processBatch s e cs st msgs) = true) :
    olt (stepNextCursor (processBatch s e cs st msgs)) p = true := by
  rcases hpb : processBatch s e cs st msgs with st2 | ⟨st2, c⟩ | st2 | ⟨s0, e0, st2⟩
  · rw [hpb] at hn; simp [stepIsNext] at hn
  · exact processBatch_next_progress s e cs st st2 c msgs p hpb hp hp0
  · rw [hpb] at hn; simp [stepIsNext] at hn
  · rw [hpb] at hn; simp [stepIsNext] at hn

theorem claim_C5_witness :
    olt (stepNextCursor (processBatch none none none st_c5 batch_c5w)) 5 = true :=
  claim_C5_amended none none none st_c5 batch_c5w 5 rfl (by decide) (by decide)

/-- C6: the spec's worked example: count(channel, start=100, end=200)
against a single short batch with tokens [150, 160, 201] returns exactly 2,
counting 150 and 160 and excluding 201 as beyond the inclusive end. -/
theorem claim_C6 :
    (count_messages_in_channel store_c6 "c" (some 100) (some 200) 5).total = 2 ∧
    (count_messages_in_channel store_c6 "c" (some 100) (some 200) 5).counted =
      [150, 160] := by
  decide

/-- C7: in a run with a nonzero start token in which ignored-start
detection never fires, every counted token strictly exceeds the caller's
original start: the exclusive start bound is enforced against the original
start in every iteration, not against the advancing cursor. -/
theorem claim_C7 (store : Store) (ch : String) (e : Option Int) (fuel : Nat)
    (s : Int) (hs : s ≠ 0)
    (hdet : (count_messages_in_channel store ch (some s) e fuel).detection = false) :
    ∀ t ∈ (count_messages_in_channel store ch (some s) e fuel).counted, s < t := by
  intro t ht
  rcases countLoopGo_counted_gt_start store ch s hs fuel e (some s) count_init_state
      hdet t ht with hin | hgt
  · exact absurd hin (by simp [count_init_state])
  · exact hgt

theorem claim_C7_witness : (100 : Int) < 150 :=
  claim_C7 store_c6 "c" (some 200) 5 100 (by decide) (by decide) 150 (by decide)

/-- C8: supplying --start 5 and --end 0 (both present, start >= end) does
NOT exit with code 1 before any store call: the truthiness check treats the
zero end as absent, validation passes, a fetch is issued and the program
exits 0.  This refutes the claim as stated for every invocation with
start >= end. -/
theorem claim_C8_counterexample :
    (main_run store_empty "c" (some 5) (some 0) 5).exitCode = 0 ∧
    (main_run store_empty "c" (some 5) (some 0) 5).log.length = 1 ∧
    ((0 : Int) ≤ 5) := by
  decide

/-- C8 (amended): when both bounds are supplied and nonzero and
start >= end, the program prints the validation error and exits with code 1
before any store call is made (the request log stays empty and no count is
produced). -/
theorem claim_C8_amended (store : Store) (ch : String) (fuel : Nat) (s e : Int)
    (hs : s ≠ 0) (he : e ≠ 0) (hse : e ≤ s) :
    main_run store ch (some s) (some e) fuel =
      { exitCode := 1, log := [], total := none } := by
  have hv : main_validation_fails (some s) (some e) = true := by
    simp [main_validation_fails, otruthy, oval, hs, he, hse]
  simp [main_run, hv]

theorem claim_C8_witness :
    main_run store_empty "c" (some 5) (some 3) 2 =
      { exitCode := 1, log := [], total := none } :=
  claim_C8_amended store_empty "c" 2 5 3 (by decide) (by decide) (by decide)

/-- C9: a zero bound behaves exactly like an absent bound, at the counter
and at the CLI surface: count with start = 0 equals count with no start
(same total, same counted tokens, same fetch requests, same ghost state),
likewise for end = 0, and the corresponding `main` runs coincide (in
particular the start >= end validation is skipped when either bound is 0,
and no zero bound is ever sent to the store or used in filtering). -/
theorem claim_C9 :
    (∀ (store : Store) (ch : String) (e : Option Int) (fuel : Nat),
      count_messages_in_channel store ch (some 0) e fuel =
        count_messages_in_channel store ch none e fuel) ∧
    (∀ (store : Store) (ch : String) (s : Option Int) (fuel : Nat),
      count_messages_in_channel store ch s (some 0) fuel =
        count_messages_in_channel store ch s none fuel) ∧
    (∀ (store : Store) (ch : String) (e : Option Int) (fuel : Nat),
      main_run store ch (some 0) e fuel = main_run store ch none e fuel) ∧
    (∀ (store : Store) (ch : String) (s : Option Int) (fuel : Nat),
      main_run store ch s (some 0) fuel = main_run store ch s none fuel) := by
  have hcnt1 : ∀ (store : Store) (ch : String) (e : Option Int) (fuel : Nat),
      count_messages_in_channel store ch (some 0) e fuel =
        count_messages_in_channel store ch none e fuel := by
    intro store ch e fuel
    exact countLoopGo_congr store ch fuel (some 0) none e e (some 0) none
      count_init_state (by decide) rfl rfl rfl (by decide) rfl
  have hcnt2 : ∀ (store : Store) (ch : String) (s : Option Int) (fuel : Nat),
      count_messages_in_channel store ch s (some 0) fuel =
        count_messages_in_channel store ch s none fuel := by
    intro store ch s fuel
    exact countLoopGo_congr store ch fuel s s (some 0) none s s
      count_init_state rfl rfl (by decide) rfl rfl rfl
  refine ⟨hcnt1, hcnt2, ?_, ?_⟩
  · intro store ch e fuel
    have hv1 : main_validation_fails (some 0) e = false := by
      simp [main_validation_fails, otruthy]
    have hv2 : main_validation_fails none e = false := by
      simp [main_validation_fails, otruthy]
    simp [main_run, hv1, hv2, hcnt1 store ch e fuel]
  · intro store ch s fuel
    have hv1 : main_validation_fails s (some 0) = false := by
      simp [main_validation_fails, otruthy]
    have hv2 : main_validation_fails s none = false := by
      simp [main_validation_fails, otruthy]
    simp [main_run, hv1, hv2, hcnt2 store ch s fuel]

/-- C10: each heuristic sub-procedure is entered at most once per top-level
count (so the recursion through `count_all_messages` has depth at most one),
and a run with both bounds absent — exactly what the nested full-scan run
is — can never trigger ignored-start detection, never enters a
sub-procedure and never recurses further. -/
theorem claim_C10 :
    (∀ (store : Store) (ch : String) (s e : Option Int) (fuel : Nat),
      (count_messages_in_channel store ch s e fuel).fullScans ≤ 1 ∧
      (count_messages_in_channel store ch s e fuel).bisections ≤ 1) ∧
    (∀ (store : Store) (ch : String) (fuel : Nat),
      (count_all_messages store ch fuel).detection = false ∧
      (count_all_messages store ch fuel).fullScans = 0 ∧
      (count_all_messages store ch fuel).bisections = 0) := by
  constructor
  · intro store ch s e fuel
    exact countLoopGo_sub_le store ch fuel s e s count_init_state
  · intro store ch fuel
    have h := countLoopGo_ghost_eq_of_no_detect store ch fuel none none none
      count_init_state (fun _ => rfl)
    exact ⟨h.2.2, h.1, h.2.1⟩

end PubnubPunk
